import Mathlib

/-!
Verification development for the resume parser (`resume_parser.py`).

The Python source is shallowly embedded over `List Char`: each Python string
becomes a character list, each regular-expression search is implemented as an
explicit scanner with the leftmost-match / greedy-with-backtracking semantics
of Python's `re` module specialised to the concrete pattern, and each mutable
parsing loop becomes a structurally recursive function with explicit state.
Optional dictionary keys become `Option` fields.
-/

set_option maxRecDepth 8000
set_option maxHeartbeats 2000000

namespace ResumeParser

/-- Convert a string literal to its character list; all of the embedding works
over `List Char` so that everything reduces in the kernel. -/
def cs (s : String) : List Char := s.data

/-- Python whitespace, as used by `str.strip` and the regex class `\s`
(space, tab, newline, carriage return, vertical tab, form feed). -/
def pyWsB (c : Char) : Bool :=
  c = ' ' || c = '\t' || c = '\n' || c = '\r' || c = Char.ofNat 11 || c = Char.ofNat 12

/-- Python `str.strip()`. -/
def pyStrip (l : List Char) : List Char :=
  ((l.dropWhile pyWsB).reverse.dropWhile pyWsB).reverse

/-- Python `str.lower()` (ASCII). -/
def lowerL (l : List Char) : List Char := l.map Char.toLower

/-- Python `str.upper()` (ASCII). -/
def upperL (l : List Char) : List Char := l.map Char.toUpper

/-- Python `text.split(sep)` for a one-character separator. -/
def splitOnC (sep : Char) : List Char → List (List Char)
  | [] => [[]]
  | c :: t =>
    match splitOnC sep t with
    | [] => [[c]]
    | h :: r => if c = sep then [] :: h :: r else (c :: h) :: r

/-- `text.split('\n')`, the canonical line sequence used by all stages. -/
def splitNl : List Char → List (List Char) := splitOnC '\n'

/-- `re.split(r'[,•\n\-\|]', line)` from `extract_skills`. -/
def splitDelims : List Char → List (List Char)
  | [] => [[]]
  | c :: t =>
    match splitDelims t with
    | [] => [[c]]
    | h :: r =>
      if c = ',' || c = '•' || c = '\n' || c = '-' || c = '|' then [] :: h :: r
      else (c :: h) :: r

/-- Python substring containment (`needle in hay`). -/
def isSubL (n : List Char) : List Char → Bool
  | [] => n.isEmpty
  | c :: t => n.isPrefixOf (c :: t) || isSubL n t

/-- Fuel-driven worker for `replaceSub`. -/
def replaceSubGo (pat rep : List Char) : Nat → List Char → List Char
  | 0, l => l
  | _ + 1, [] => []
  | fuel + 1, c :: t =>
    if !pat.isEmpty && pat.isPrefixOf (c :: t) then
      rep ++ replaceSubGo pat rep fuel (t.drop (pat.length - 1))
    else
      c :: replaceSubGo pat rep fuel t

/-- Python `str.replace(pat, rep)`: all non-overlapping occurrences, left to right. -/
def replaceSub (pat rep l : List Char) : List Char := replaceSubGo pat rep l.length l

/-- Worker for `pyWords`, accumulating the current token reversed. -/
def pyWordsGo (cur : List Char) : List Char → List (List Char)
  | [] => if cur.isEmpty then [] else [cur.reverse]
  | c :: t =>
    if pyWsB c then
      if cur.isEmpty then pyWordsGo [] t else cur.reverse :: pyWordsGo [] t
    else pyWordsGo (c :: cur) t

/-- Python `str.split()`: split on whitespace runs, dropping empty tokens. -/
def pyWords (l : List Char) : List (List Char) := pyWordsGo [] l

/-- Worker for `pyTitle`; the flag records whether the previous character was cased. -/
def pyTitleGo : Bool → List Char → List Char
  | _, [] => []
  | prevCased, c :: t =>
    (if c.isAlpha then (if prevCased then c.toLower else c.toUpper) else c) ::
      pyTitleGo c.isAlpha t

/-- Python `str.title()` (ASCII). -/
def pyTitle (l : List Char) : List Char := pyTitleGo false l

/-- The regex class `\w` (ASCII). -/
def wordChar (c : Char) : Bool := c.isAlpha || c.isDigit || c = '_'

def isWordO : Option Char → Bool
  | none => false
  | some c => wordChar c

/-- The regex assertion `\b` between an optional previous character and an
optional next character (out of range counts as a non-word character). -/
def boundaryB (a b : Option Char) : Bool := isWordO a != isWordO b

/-- Python `str.isdigit()` (ASCII digits). -/
def pyIsDigit (l : List Char) : Bool := !l.isEmpty && l.all Char.isDigit

/-- Python `str.isalpha()` (ASCII letters; an empty string is not alphabetic). -/
def pyIsAlpha (l : List Char) : Bool := !l.isEmpty && l.all Char.isAlpha

/-- Decimal rendering of a natural number, for the `f"... {n} ..."` strings. -/
def natStr (n : Nat) : List Char := Nat.toDigits 10 n

/-- Generic leftmost-match scanner: try a matcher at every start position,
left to right, exactly like `re.search`. -/
def scanO {α : Type} (f : List Char → Option α) : List Char → Option α
  | [] => f []
  | c :: t =>
    match f (c :: t) with
    | some r => some r
    | none => scanO f t

/-- Leftmost-match scanner that also tracks the character immediately before
the current position, for patterns anchored with `\b`. -/
def scanPrev {α : Type} (f : Option Char → List Char → Option α) :
    Option Char → List Char → Option α
  | prev, [] => f prev []
  | prev, c :: t =>
    match f prev (c :: t) with
    | some r => some r
    | none => scanPrev f (some c) t

/-! ## Section segmenter (`section_headers`, `find_section_boundaries`,
`extract_section_content`) -/

/-- The eight fixed section kinds, in the source dictionary's declaration order. -/
inductive SKind
  | contact | summary | experience | education | skills | projects | certifications | achievements
deriving DecidableEq

def allKinds : List SKind :=
  [SKind.contact, SKind.summary, SKind.experience, SKind.education,
   SKind.skills, SKind.projects, SKind.certifications, SKind.achievements]

/-- `self.section_headers`: keyword synonym lists per section kind. -/
def kindKeywords : SKind → List (List Char)
  | SKind.contact =>
      [cs "contact", cs "personal information", cs "personal details", cs "contact information"]
  | SKind.summary =>
      [cs "summary", cs "profile", cs "objective", cs "about", cs "professional summary",
       cs "career objective"]
  | SKind.experience =>
      [cs "experience", cs "work experience", cs "employment", cs "work history",
       cs "professional experience", cs "work", cs "career", cs "employment history"]
  | SKind.education =>
      [cs "education", cs "academic background", cs "qualifications", cs "academic",
       cs "educational background"]
  | SKind.skills =>
      [cs "skills", cs "technical skills", cs "competencies", cs "technologies",
       cs "technical competencies", cs "core competencies"]
  | SKind.projects =>
      [cs "projects", cs "personal projects", cs "key projects", cs "project"]
  | SKind.certifications =>
      [cs "certifications", cs "certificates", cs "licenses", cs "certification"]
  | SKind.achievements =>
      [cs "achievements", cs "key achievements", cs "accomplishments", cs "awards"]

/-- The per-keyword test of the non-table branch of `find_section_boundaries`:
the cleaned line equals the keyword, or contains it, is shorter than 50
characters and starts or ends with it (or is `keyword:` / `keyword :`). -/
def lineMatchesKw (kw lc : List Char) : Bool :=
  lc == kw ||
    (isSubL kw lc && decide (lc.length < 50) &&
      (kw.isPrefixOf lc || kw.isSuffixOf lc ||
        lc == kw ++ cs ":" || lc == kw ++ cs " :"))

/-- The full per-line matching policy of `find_section_boundaries`: long lines
never match; a line containing `headers:` is matched by substring against the
remainder; otherwise the keyword test above applies. -/
def lineMatchesPolicy (keywords : List (List Char)) (line : List Char) : Bool :=
  let lc := lowerL (pyStrip line)
  if lc.length > 100 then false
  else if isSubL (cs "headers:") lc then
    let hc := pyStrip (replaceSub (cs "headers:") [] lc)
    keywords.any (fun kw => isSubL kw hc)
  else keywords.any (fun kw => lineMatchesKw kw lc)

/-- The scanning loop of `find_section_boundaries` for one section kind.
A match on a `headers:` line records the index and keeps scanning (the
source `continue`s past the break check); a match on a regular line stops;
a regular non-matching line also stops when a boundary was already recorded. -/
def findBoundaryGo (keywords : List (List Char)) : Nat → Option Nat → List (List Char) → Option Nat
  | _, found, [] => found
  | i, found, line :: rest =>
    let lc := lowerL (pyStrip line)
    if lc.length > 100 then findBoundaryGo keywords (i + 1) found rest
    else if isSubL (cs "headers:") lc then
      let hc := pyStrip (replaceSub (cs "headers:") [] lc)
      if keywords.any (fun kw => isSubL kw hc) then
        findBoundaryGo keywords (i + 1) (some i) rest
      else findBoundaryGo keywords (i + 1) found rest
    else if keywords.any (fun kw => lineMatchesKw kw lc) then some i
    else
      match found with
      | some j => some j
      | none => findBoundaryGo keywords (i + 1) none rest

/-- `find_section_boundaries`, per section kind (the dictionary is modelled as
a function into `Option Nat`, which also makes "at most one boundary per kind"
structural). -/
def find_section_boundaries (text : List Char) (k : SKind) : Option Nat :=
  findBoundaryGo (kindKeywords k) 0 none (splitNl text)

/-- The smallest index of a line satisfying a predicate (used to state what
"first match wins" means). -/
def leastMatch (p : List Char → Bool) : List (List Char) → Option Nat
  | [] => none
  | l :: rest => if p l then some 0 else (leastMatch p rest).map (· + 1)

/-- Drop trailing blank lines, as the `while ... pop()` loop of
`extract_section_content`. -/
def dropTrailingBlank (ls : List (List Char)) : List (List Char) :=
  (ls.reverse.dropWhile (fun l => (pyStrip l).isEmpty)).reverse

/-- `extract_section_content`: the lines strictly between the section's
boundary and the nearest larger boundary (or end of document), with trailing
blanks dropped, joined by newlines and stripped. -/
def extract_section_content (text : List Char) (k : SKind) : List Char :=
  match find_section_boundaries text k with
  | none => []
  | some start =>
    let lines := splitNl text
    let endIdx := allKinds.foldl
      (fun e k' =>
        match find_section_boundaries text k' with
        | some oi => if start < oi && oi < e then oi else e
        | none => e)
      lines.length
    let content := dropTrailingBlank ((lines.drop (start + 1)).take (endIdx - (start + 1)))
    pyStrip (List.intercalate (cs "\n") content)

/-! ## Skills extractor (`tech_skills`, `extract_skills`) -/

/-- `self.tech_skills`, in source order. -/
def tech_skills : List (List Char) :=
  [cs "java", cs "python", cs "javascript", cs "c++", cs "c#", cs "php", cs "ruby", cs "go",
   cs "kotlin", cs "swift", cs "typescript", cs "scala", cs "r", cs "matlab", cs "perl",
   cs "rust", cs "dart", cs "j2ee",
   cs "spring", cs "spring boot", cs "spring mvc", cs "hibernate", cs "react", cs "angular",
   cs "vue.js", cs "node.js", cs "express", cs "django", cs "flask", cs "rails", cs "laravel",
   cs ".net", cs "asp.net", cs "jquery", cs "bootstrap", cs "struts",
   cs "mysql", cs "postgresql", cs "mongodb", cs "oracle", cs "sql server", cs "sqlite",
   cs "redis", cs "cassandra", cs "dynamodb", cs "elasticsearch", cs "neo4j", cs "rdbms",
   cs "aws", cs "azure", cs "gcp", cs "docker", cs "kubernetes", cs "jenkins", cs "git",
   cs "github", cs "gitlab", cs "terraform", cs "ansible", cs "chef", cs "puppet", cs "ci/cd",
   cs "kafka", cs "rabbitmq", cs "microservices", cs "restful api", cs "rest api", cs "graphql",
   cs "soap", cs "junit", cs "selenium", cs "postman", cs "swagger", cs "maven", cs "gradle",
   cs "npm", cs "webpack", cs "tomcat", cs "jpa", cs "orm",
   cs "linux", cs "unix", cs "windows", cs "macos",
   cs "agile", cs "scrum", cs "kanban", cs "devops", cs "tdd", cs "bdd"]

/-- `re.search(r'\b' + re.escape(pat) + r'\b', text)` for a literal `pat`:
the literal occurs with a word boundary on each side. -/
def wbMatchAt (pat : List Char) (prev : Option Char) (s : List Char) : Option Unit :=
  if boundaryB prev pat.head? && pat.isPrefixOf s &&
      boundaryB pat.getLast? (s.drop pat.length).head? then some () else none

def wbSearch (pat text : List Char) : Bool :=
  (scanPrev (wbMatchAt pat) none text).isSome

/-- Category-header fragments skipped by the line pass of `extract_skills`. -/
def skillCategoryHeaders : List (List Char) :=
  [cs "languages:", cs "frameworks:", cs "databases:", cs "tools:", cs "architecture:"]

/-- The noise-phrase denylist of `extract_skills`. -/
def skillNoise : List (List Char) :=
  [cs "@", cs ".com", cs "present", cs "mumbai", cs "bangalore", cs "years", cs "experience",
   cs "oct", cs "dec", cs "gained", cs "hands", cs "system", cs "framework", cs "between",
   cs "time", cs "syncing", cs "reducing", cs "transaction", cs "failures", cs "collaborated",
   cs "frontend", cs "meet", cs "business", cs "goals", cs "software", cs "engineer"]

/-- The stopword list of `extract_skills`. -/
def skillStopwords : List (List Char) :=
  [cs "and", cs "the", cs "for", cs "with", cs "from", cs "to", cs "in", cs "on", cs "at", cs "by"]

/-- `re.match(r'^[•\-\*\s]+$', skill)`: the token is made of bullet marks,
dashes, stars and whitespace only. -/
def symbolsOnly (l : List Char) : Bool :=
  !l.isEmpty && l.all (fun c => c = '•' || c = '-' || c = '*' || pyWsB c)

/-- The strict noise filter applied to each delimiter-split token. -/
def skillTokenOk (skill : List Char) : Bool :=
  decide (2 ≤ skill.length) && decide (skill.length ≤ 25) &&
  !(skillNoise.any (fun n => isSubL n (lowerL skill))) &&
  !pyIsDigit skill &&
  !symbolsOnly skill &&
  !(skill.contains '@') &&
  !(skillStopwords.contains (lowerL skill))

/-- The curated-vocabulary pass of `extract_skills`: whole-word,
case-insensitive hits against `tech_skills`, title-cased, in vocabulary order. -/
def curatedSkillHits (skills_text : List Char) : List (List Char) :=
  let text_lower := lowerL skills_text
  (tech_skills.filter
    (fun sk => isSubL (lowerL sk) text_lower && wbSearch (lowerL sk) text_lower)).map pyTitle

/-- The line pass of `extract_skills`: split each non-header line on
`, • \n - |` and keep stripped tokens passing the noise filter. -/
def lineSkillTokens (skills_text : List Char) : List (List Char) :=
  (splitNl skills_text).foldl
    (fun acc rawLine =>
      let line := pyStrip rawLine
      if line.isEmpty then acc
      else if skillCategoryHeaders.any (fun h => isSubL h (lowerL line)) then acc
      else acc ++ ((splitDelims line).map pyStrip).filter skillTokenOk)
    []

/-- Everything appended to `found_skills`, in order: curated hits first,
then the per-line tokens. -/
def collect_found_skills (skills_text : List Char) : List (List Char) :=
  curatedSkillHits skills_text ++ lineSkillTokens skills_text

/-- The final deduplication loop of `extract_skills`: case-insensitive,
first-seen casing kept, empty tokens dropped; `seen` holds the lowercase
forms already emitted. -/
def dedupSkillsGo (seen : List (List Char)) : List (List Char) → List (List Char)
  | [] => []
  | s :: rest =>
    let c := pyStrip s
    let lo := lowerL c
    if lo ∉ seen ∧ c ≠ [] then c :: dedupSkillsGo (lo :: seen) rest
    else dedupSkillsGo seen rest

def dedupSkills (found : List (List Char)) : List (List Char) := dedupSkillsGo [] found

/-- `extract_skills`. -/
def extract_skills (text : List Char) : List (List Char) :=
  let skills_text := extract_section_content text SKind.skills
  if skills_text.isEmpty then []
  else dedupSkills (collect_found_skills skills_text)

/-! ## Experience parser (`is_job_header`, `is_project_header`,
`parse_job_header`, `parse_project_header`, `extract_experience_from_tables`,
`extract_experience`) -/

/-- A parsed project (`ProjectEntry`); `Option` fields model dictionary keys
that may be absent. -/
structure ProjInfo where
  raw_header : List Char
  name : Option (List Char) := none
  duration : Option (List Char) := none
  description : Option (List Char) := none
deriving DecidableEq

/-- A parsed job (`JobEntry`); line-mode jobs carry `raw_header`, table-mode
jobs do not; the `projects` key exists only once a project has been attached. -/
structure JobInfo where
  raw_header : Option (List Char) := none
  position : Option (List Char) := none
  company : Option (List Char) := none
  duration : Option (List Char) := none
  description : Option (List Char) := none
  projects : Option (List ProjInfo) := none
deriving DecidableEq

def emptyJob : JobInfo := {}

/-- Four consecutive ASCII digits at the head (`\d{4}` at a position). -/
def fourDigitsAt : List Char → Bool
  | a :: b :: c :: d :: _ => a.isDigit && b.isDigit && c.isDigit && d.isDigit
  | _ => false

/-- `re.search(r'\|\s*\d{4}', line)`. -/
def searchPipeYear : List Char → Bool
  | [] => false
  | c :: t => (c = '|' && fourDigitsAt (t.dropWhile pyWsB)) || searchPipeYear t

/-- `re.search(r'\(\d{4}', line)`. -/
def searchParenYear : List Char → Bool
  | [] => false
  | c :: t => (c = '(' && fourDigitsAt t) || searchParenYear t

/-- `re.search(r',\s*[A-Z][a-z]+', line)`: a comma followed by a capitalised
word, the `, City` location shape. -/
def searchCommaCity : List Char → Bool
  | [] => false
  | c :: t =>
    (c = ',' &&
      (match t.dropWhile pyWsB with
       | u :: v :: _ => u.isUpper && v.isLower
       | _ => false)) || searchCommaCity t

/-- Job-title keywords of `is_job_header`. -/
def jobIndicatorsWide : List (List Char) :=
  [cs "software engineer", cs "developer", cs "analyst", cs "manager", cs "intern",
   cs "consultant", cs "specialist", cs "architect", cs "lead", cs "senior", cs "junior",
   cs "associate", cs "trainee"]

/-- Company-suffix keywords of `is_job_header`. -/
def companySuffixesLower : List (List Char) :=
  [cs "ltd", cs "inc", cs "corp", cs "llc", cs "pvt", cs "limited", cs "company",
   cs "solutions", cs "technologies", cs "systems", cs "group", cs "labs", cs "enterprises"]

/-- `is_job_header`. -/
def is_job_header (line : List Char) : Bool :=
  if (pyStrip line).length < 5 then false
  else
    let ll := lowerL line
    let has_date_pattern := searchPipeYear line || searchParenYear line
    let has_job_title := jobIndicatorsWide.any (fun x => isSubL x ll)
    let has_company_suffix := companySuffixesLower.any (fun x => isSubL x ll)
    let has_location := searchCommaCity line
    (has_job_title || has_company_suffix) && (has_date_pattern || has_location)

/-- Project-indicator keywords of `is_project_header`. -/
def projectIndicators : List (List Char) :=
  [cs "project:", cs "project ", cs "application", cs "system", cs "platform", cs "tool"]

/-- `re.search(r'\(\w+\s+\d{4}.*?\)', line)`: an opening parenthesis, a word,
whitespace, four digits, and a closing parenthesis later (on the same line —
`.` does not cross newlines). -/
def projDateTail (t : List Char) : Bool :=
  let r1 := t.dropWhile wordChar
  let r2 := r1.dropWhile pyWsB
  !(t.takeWhile wordChar).isEmpty && !(r1.takeWhile pyWsB).isEmpty &&
    fourDigitsAt r2 && ((r2.drop 4).takeWhile (fun c => c ≠ '\n')).contains ')'

def searchProjDate : List Char → Bool
  | [] => false
  | c :: t => (c = '(' && projDateTail t) || searchProjDate t

/-- `is_project_header`. -/
def is_project_header (line : List Char) : Bool :=
  let ll := lowerL line
  let has_project_indicator := projectIndicators.any (fun x => isSubL x ll)
  let has_date_pattern := searchProjDate line
  has_project_indicator && (has_date_pattern || decide (line.length < 100))

/-- The character class `[A-Za-z\s&,.&-]` of the company/institution regexes. -/
def companyClassChar (c : Char) : Bool :=
  c.isAlpha || pyWsB c || c = '&' || c = ',' || c = '.' || c = '-'

/-- Try the longest class run first (greedy `+` with backtracking): for
lengths `n, n-1, ..., 1` look for a literal alternative right after the run;
returns the full matched span. -/
def classThenWord (words : List (List Char)) (c0 : Char) (t : List Char) :
    Nat → Option (List Char)
  | 0 => none
  | n + 1 =>
    match words.find? (fun w => w.isPrefixOf (t.drop (n + 1))) with
    | some w => some (c0 :: (t.take (n + 1) ++ w))
    | none => classThenWord words c0 t n

/-- Leftmost match of `[A-Z][A-Za-z\s&,.&-]+(?:W1|W2|...)` for a literal
alternative list; mirrors `re.search` + greedy backtracking. -/
def searchCapClassWord (words : List (List Char)) : List Char → Option (List Char)
  | [] => none
  | c :: t =>
    if c.isUpper then
      match classThenWord words c t (t.takeWhile companyClassChar).length with
      | some r => some r
      | none => searchCapClassWord words t
    else searchCapClassWord words t

/-- Literal suffix alternatives of the first company pattern. -/
def companySuffixWords : List (List Char) :=
  [cs "Ltd", cs "Inc", cs "Corp", cs "LLC", cs "Pvt", cs "Limited", cs "Company",
   cs "Solutions", cs "Technologies", cs "Systems", cs "Group", cs "Labs", cs "Enterprises"]

/-- Group 1 of `([A-Z][A-Za-z\s&,.&-]+),\s*[A-Z][a-z]+\s*\|` at one start
position: the class run must be followed by a comma, a capitalised word,
optional whitespace and a pipe. -/
def companyCityPipeAt (c0 : Char) (t : List Char) : Nat → Option (List Char)
  | 0 => none
  | n + 1 =>
    (match t.drop (n + 1) with
     | ',' :: r =>
       (match r.dropWhile pyWsB with
        | u :: r2 =>
          if u.isUpper then
            let low := r2.takeWhile Char.isLower
            if !low.isEmpty && ((r2.drop low.length).dropWhile pyWsB).head? = some '|' then
              some (c0 :: t.take (n + 1))
            else none
          else none
        | [] => none)
     | _ => none).orElse (fun _ => companyCityPipeAt c0 t n)

def searchCompanyCityPipe : List Char → Option (List Char)
  | [] => none
  | c :: t =>
    if c.isUpper then
      match companyCityPipeAt c t (t.takeWhile companyClassChar).length with
      | some r => some r
      | none => searchCompanyCityPipe t
    else searchCompanyCityPipe t

/-- The two company patterns of `parse_job_header`, in order. -/
def companySearch (combined : List Char) : Option (List Char) :=
  match searchCapClassWord companySuffixWords combined with
  | some m => some (pyStrip m)
  | none =>
    match searchCompanyCityPipe combined with
    | some m => some (pyStrip m)
    | none => none

/-- Duration pattern `\|\s*([^|]+?)(?:\s*$|\s*\n)`: the text after the last
pipe (the lazy group may not cross a `|` and must reach the end), stripped.
The joined header text contains no newline, so `$` is the end of the string. -/
def durPipeTail : List Char → Option (List Char)
  | [] => none
  | c :: t =>
    if c = '|' then
      if t.contains '|' then durPipeTail t
      else if t.isEmpty then none
      else some (pyStrip t)
    else durPipeTail t

/-- Duration pattern `(\d{4}\s*-\s*(?:\d{4}|Present))` at one position. -/
def durYearRangeAt (s : List Char) : Option (List Char) :=
  if fourDigitsAt s then
    let d4 := s.take 4
    let r := s.drop 4
    let w1 := r.takeWhile pyWsB
    match r.drop w1.length with
    | '-' :: r2 =>
      let w2 := r2.takeWhile pyWsB
      let r3 := r2.drop w2.length
      if fourDigitsAt r3 then some (d4 ++ w1 ++ '-' :: (w2 ++ r3.take 4))
      else if (cs "Present").isPrefixOf r3 then some (d4 ++ w1 ++ '-' :: (w2 ++ cs "Present"))
      else none
    | _ => none
  else none

/-- Two consecutive ASCII digits at the head. -/
def twoDigitsAt : List Char → Bool
  | a :: b :: _ => a.isDigit && b.isDigit
  | _ => false

/-- Duration pattern `([A-Z][a-z]+\s+\d{2}\s*-\s*[A-Z][a-z]+\s+\d{2})`
at one position (`Mon YY - Mon YY`). -/
def durMonthRangeAt (s : List Char) : Option (List Char) :=
  match s with
  | c :: t =>
    if c.isUpper then
      let low := t.takeWhile Char.isLower
      let r1 := t.drop low.length
      let w1 := r1.takeWhile pyWsB
      let r2 := r1.drop w1.length
      if !low.isEmpty && !w1.isEmpty && twoDigitsAt r2 then
        let r3 := r2.drop 2
        let w2 := r3.takeWhile pyWsB
        match r3.drop w2.length with
        | '-' :: r4 =>
          let w3 := r4.takeWhile pyWsB
          (match r4.drop w3.length with
           | c2 :: t2 =>
             if c2.isUpper then
               let low2 := t2.takeWhile Char.isLower
               let r5 := t2.drop low2.length
               let w4 := r5.takeWhile pyWsB
               let r6 := r5.drop w4.length
               if !low2.isEmpty && !w4.isEmpty && twoDigitsAt r6 then
                 some (c :: low ++ w1 ++ r2.take 2 ++ w2 ++ '-' :: w3 ++
                       c2 :: low2 ++ w4 ++ r6.take 2)
               else none
             else none
           | [] => none)
        | _ => none
      else none
    else none
  | [] => none

/-- The ordered duration patterns of `parse_job_header`, first match wins. -/
def durationSearch (combined : List Char) : Option (List Char) :=
  match durPipeTail combined with
  | some d => some d
  | none =>
    match scanO durYearRangeAt combined with
    | some d => some (pyStrip d)
    | none =>
      match scanO durMonthRangeAt combined with
      | some d => some (pyStrip d)
      | none => none

/-- The narrower job-title keyword list used for the `position` field. -/
def jobIndicatorsNarrow : List (List Char) :=
  [cs "software engineer", cs "developer", cs "analyst", cs "manager", cs "intern",
   cs "consultant", cs "specialist"]

/-- The look-ahead of `parse_job_header`: up to two following lines are
stripped and appended unless blank, a `•` bullet, or a project header. -/
def combinedLookahead : List (List Char) → List Char
  | [] => []
  | l :: rest =>
    let nl := pyStrip l
    if !nl.isEmpty && nl.head? ≠ some '•' && !is_project_header nl then
      (' ' :: nl) ++ combinedLookahead rest
    else []

/-- `parse_job_header` (the `line` argument is already stripped; `following`
holds the raw lines after it). -/
def parse_job_header (line : List Char) (following : List (List Char)) : JobInfo :=
  let combined := line ++ combinedLookahead (following.take 2)
  let position :=
    match jobIndicatorsNarrow.find? (fun ind => isSubL ind (lowerL line)) with
    | some ind => some (pyTitle ind)
    | none => none
  { raw_header := some line
    position := position
    company := companySearch combined
    duration := durationSearch combined
    projects := none }

/-- `re.match(r'Project:\s*([^(]+)', line)`: anchored at the start,
the literal `Project:`, optional whitespace, then at least one
non-parenthesis character. -/
def projNameAfterColon (line : List Char) : Option (List Char) :=
  if (cs "Project:").isPrefixOf line then
    let r := (line.drop 8).dropWhile pyWsB
    let g := r.takeWhile (fun c => c ≠ '(')
    if g.isEmpty then none else some g
  else none

/-- `re.search(r'\(([^)]+)\)', line)`: the first parenthesised group. -/
def parenGroup : List Char → Option (List Char)
  | [] => none
  | c :: t =>
    if c = '(' then
      let g := t.takeWhile (fun x => x ≠ ')')
      if !g.isEmpty && (t.drop g.length).head? = some ')' then some g
      else parenGroup t
    else parenGroup t

/-- `parse_project_header`. -/
def parse_project_header (line : List Char) : ProjInfo :=
  let name :=
    match projNameAfterColon line with
    | some n => some (pyStrip n)
    | none =>
      let g := line.takeWhile (fun c => c ≠ '(')
      if g.isEmpty then none else some (pyStrip g)
  { raw_header := line
    name := name
    duration := (parenGroup line).map pyStrip
    description := none }

/-- Truthiness of an optional string field (Python `dict.values()` check). -/
def optTruthy : Option (List Char) → Bool
  | none => false
  | some v => !v.isEmpty

/-- `if current_job and any(current_job.values())` for a job dictionary. -/
def jobAnyValues (j : JobInfo) : Bool :=
  optTruthy j.raw_header || optTruthy j.position || optTruthy j.company ||
  optTruthy j.duration || optTruthy j.description ||
  (match j.projects with
   | some ps => !ps.isEmpty
   | none => false)

/-- Split a table row on `|` (Python `line.split('|')`). -/
def splitPipe : List Char → List (List Char) := splitOnC '|'

/-- One `key: value` segment of a table row, mapped onto job fields by
keyword containment on the key. -/
def applyJobRowPart (j : JobInfo) (part : List Char) : JobInfo :=
  if part.contains ':' then
    let key := lowerL (pyStrip (part.takeWhile (fun c => c ≠ ':')))
    let v := pyStrip ((part.dropWhile (fun c => c ≠ ':')).drop 1)
    if [cs "position", cs "role", cs "title", cs "designation"].any
        (fun w => isSubL w key) then { j with position := some v }
    else if [cs "company", cs "organization", cs "employer"].any
        (fun w => isSubL w key) then { j with company := some v }
    else if [cs "duration", cs "period", cs "from", cs "to", cs "date"].any
        (fun w => isSubL w key) then { j with duration := some v }
    else if [cs "description", cs "responsibilities", cs "duties"].any
        (fun w => isSubL w key) then { j with description := some v }
    else j
  else j

/-- The loop of `extract_experience_from_tables`. -/
def expTablesGo (cur : JobInfo) : List (List Char) → List JobInfo
  | [] => if jobAnyValues cur then [cur] else []
  | l :: rest =>
    let line := pyStrip l
    if line.isEmpty then expTablesGo cur rest
    else if isSubL (cs "row") (lowerL line) && line.contains ':' then
      let flushed := if jobAnyValues cur then [cur] else []
      let base := if jobAnyValues cur then emptyJob else cur
      flushed ++ expTablesGo ((splitPipe line).foldl applyJobRowPart base) rest
    else expTablesGo cur rest

/-- `extract_experience_from_tables`. -/
def extract_experience_from_tables (text : List Char) : List JobInfo :=
  expTablesGo emptyJob (splitNl text)

/-- Flush the in-progress project into the current job (`if current_project
and project_description:` — a project with an empty description buffer is
dropped; when no job is open the project is lost). -/
def flushProj (cj : Option JobInfo) (cp : Option ProjInfo) (pd : List (List Char)) :
    Option JobInfo :=
  match cp, pd with
  | some p, _ :: _ =>
    let p2 := { p with description := some (List.intercalate (cs " ") pd) }
    (match cj with
     | some j => some { j with projects := some ((j.projects.getD []) ++ [p2]) }
     | none => none)
  | _, _ => cj

/-- A bullet line (`•`, `-` or `*` prefix). -/
def isBulletLine (line : List Char) : Bool :=
  match line.head? with
  | some c => c = '•' || c = '-' || c = '*'
  | none => false

/-- `re.sub(r'^[•\-\*]\s*', '', line)`. -/
def deBullet (line : List Char) : List Char :=
  match line with
  | c :: t => if c = '•' || c = '-' || c = '*' then t.dropWhile pyWsB else line
  | [] => line

/-- `if current_job: experiences.append(current_job)` on an optional job. -/
def flushAcc (acc : List JobInfo) : Option JobInfo → List JobInfo
  | some j => acc ++ [j]
  | none => acc

/-- The line-mode scanning loop of `extract_experience`: state is the result
list, the current job, the current project and the description buffer. -/
def expGo (acc : List JobInfo) (cj : Option JobInfo) (cp : Option ProjInfo)
    (pd : List (List Char)) : List (List Char) → List JobInfo
  | [] => flushAcc acc (flushProj cj cp pd)
  | l :: rest =>
    let line := pyStrip l
    if line.isEmpty then expGo acc cj cp pd rest
    else if is_job_header line then
      expGo (flushAcc acc (flushProj cj cp pd))
        (some (parse_job_header line rest)) none [] rest
    else if is_project_header line then
      expGo acc (flushProj cj cp pd) (some (parse_project_header line)) [] rest
    else if isBulletLine line then
      let bt := deBullet line
      expGo acc cj cp (if bt.isEmpty then pd else pd ++ [bt]) rest
    else if cp.isSome && decide (20 < line.length) then
      expGo acc cj cp (pd ++ [line]) rest
    else expGo acc cj cp pd rest

/-- The line-mode experience parser applied to a section's line list. -/
def experienceLineMode (lines : List (List Char)) : List JobInfo :=
  expGo [] none none [] lines

/-- The body of `extract_experience` once the (non-empty) section text is in
hand: table mode first, otherwise line mode. -/
def experienceFromSection (experience_text : List Char) : List JobInfo :=
  let t := extract_experience_from_tables experience_text
  if !t.isEmpty then t else experienceLineMode (splitNl experience_text)

/-- `extract_experience`. -/
def extract_experience (text : List Char) : List JobInfo :=
  let experience_text := extract_section_content text SKind.experience
  if experience_text.isEmpty then [] else experienceFromSection experience_text

/-! ## Education parser (`extract_education_from_tables`, `extract_education`) -/

/-- A parsed education record (`EducationEntry`); table-mode records carry
only the keys actually set, line-mode records start with empty strings. -/
structure EduInfo where
  institution : Option (List Char) := none
  degree : Option (List Char) := none
  field : Option (List Char) := none
  year : Option (List Char) := none
  cgpa : Option (List Char) := none
  raw_text : Option (List Char) := none
deriving DecidableEq

def eduAnyValues (e : EduInfo) : Bool :=
  optTruthy e.institution || optTruthy e.degree || optTruthy e.field ||
  optTruthy e.year || optTruthy e.cgpa || optTruthy e.raw_text

/-- One `key: value` segment of a table row, mapped onto education fields. -/
def applyEduRowPart (e : EduInfo) (part : List Char) : EduInfo :=
  if part.contains ':' then
    let key := lowerL (pyStrip (part.takeWhile (fun c => c ≠ ':')))
    let v := pyStrip ((part.dropWhile (fun c => c ≠ ':')).drop 1)
    if [cs "degree", cs "qualification", cs "course"].any
        (fun w => isSubL w key) then { e with degree := some v }
    else if [cs "institution", cs "university", cs "college", cs "school"].any
        (fun w => isSubL w key) then { e with institution := some v }
    else if [cs "field", cs "specialization", cs "major", cs "stream"].any
        (fun w => isSubL w key) then { e with field := some v }
    else if [cs "year", cs "graduation", cs "completion"].any
        (fun w => isSubL w key) then { e with year := some v }
    else if [cs "cgpa", cs "gpa", cs "percentage", cs "marks"].any
        (fun w => isSubL w key) then { e with cgpa := some v }
    else e
  else e

/-- The loop of `extract_education_from_tables`. -/
def eduTablesGo (cur : EduInfo) : List (List Char) → List EduInfo
  | [] => if eduAnyValues cur then [cur] else []
  | l :: rest =>
    let line := pyStrip l
    if line.isEmpty then eduTablesGo cur rest
    else if isSubL (cs "row") (lowerL line) && line.contains ':' then
      let flushed := if eduAnyValues cur then [cur] else []
      let base := if eduAnyValues cur then ({} : EduInfo) else cur
      flushed ++ eduTablesGo ((splitPipe line).foldl applyEduRowPart base) rest
    else eduTablesGo cur rest

/-- `extract_education_from_tables`. -/
def extract_education_from_tables (text : List Char) : List EduInfo :=
  eduTablesGo {} (splitNl text)

/-- Literal suffix alternatives of the first institution pattern. -/
def institutionWords : List (List Char) :=
  [cs "University", cs "College", cs "Institute", cs "School"]

/-- Group 1 of `([A-Z][A-Za-z\s&,.&-]+),\s*([A-Za-z]+)` at one start
position: the class run must be followed by a comma, optional whitespace and
at least one letter. -/
def instCommaAt (c0 : Char) (t : List Char) : Nat → Option (List Char)
  | 0 => none
  | n + 1 =>
    (match t.drop (n + 1) with
     | ',' :: r =>
       (match r.dropWhile pyWsB with
        | u :: _ => if u.isAlpha then some (c0 :: t.take (n + 1)) else none
        | [] => none)
     | _ => none).orElse (fun _ => instCommaAt c0 t n)

def searchInstComma : List Char → Option (List Char)
  | [] => none
  | c :: t =>
    if c.isUpper then
      match instCommaAt c t (t.takeWhile companyClassChar).length with
      | some r => some r
      | none => searchInstComma t
    else searchInstComma t

/-- The two institution patterns of `extract_education`, in order. -/
def institutionSearch (line : List Char) : Option (List Char) :=
  match searchCapClassWord institutionWords line with
  | some m => some (pyStrip m)
  | none =>
    match searchInstComma line with
    | some m => some (pyStrip m)
    | none => none

/-- Consume an optional single character (regex `c?`); deterministic here
because in every use the following pattern cannot start with `c`. -/
def optChar (c : Char) (s : List Char) : List Char :=
  match s with
  | x :: t => if x = c then t else s
  | [] => s

/-- The capture `([^,\n]+)` : at least one character up to the first comma or
newline. -/
def captureNoComma (s : List Char) : Option (List Char) :=
  let g := s.takeWhile (fun c => c ≠ ',' && c ≠ '\n')
  if g.isEmpty then none else some g

/-- Require a literal, returning the rest. -/
def dropLit (lit : List Char) (s : List Char) : Option (List Char) :=
  if lit.isPrefixOf s then some (s.drop lit.length) else none

/-- `masters?\s+in\s+([^,\n]+)` at one position. -/
def degMastersInAt (s : List Char) : Option (List Char) :=
  (dropLit (cs "master") s).bind fun r =>
  let r := optChar 's' r
  let w1 := r.takeWhile pyWsB
  if w1.isEmpty then none else
  (dropLit (cs "in") (r.drop w1.length)).bind fun r2 =>
  let w2 := r2.takeWhile pyWsB
  if w2.isEmpty then none else captureNoComma (r2.drop w2.length)

/-- `LIT1\s*LIT2\s*([^,\n]+)` at one position (used for `master of`,
`bachelor of`, `diploma in`). -/
def degLitWsLitAt (lit1 lit2 : List Char) (s : List Char) : Option (List Char) :=
  (dropLit lit1 s).bind fun r =>
  (dropLit lit2 (r.dropWhile pyWsB)).bind fun r2 =>
  captureNoComma (r2.dropWhile pyWsB)

/-- `X\.?\s*Y\.?\s*in\s*([^,\n]+)` at one position (used for `b.sc`, `b.e`,
`m.sc`, `m.tech` style patterns; `dotAfterY` switches the second `\.?`). -/
def degAbbrevAt (x y : List Char) (dotAfterY : Bool) (s : List Char) :
    Option (List Char) :=
  (dropLit x s).bind fun r =>
  let r := optChar '.' r
  (dropLit y (r.dropWhile pyWsB)).bind fun r2 =>
  let r2 := if dotAfterY then optChar '.' r2 else r2
  (dropLit (cs "in") (r2.dropWhile pyWsB)).bind fun r3 =>
  captureNoComma (r3.dropWhile pyWsB)

/-- The ordered degree-pattern table of `extract_education`: each entry is a
searcher over the lowercased line plus the degree label, first match wins. -/
def degreePatterns : List ((List Char → Option (Option (List Char))) × List Char) :=
  [(fun ll => (scanO degMastersInAt ll).map some, cs "Masters"),
   (fun ll => (scanO (degLitWsLitAt (cs "master") (cs "of")) ll).map some, cs "Master of"),
   (fun ll => (scanO (degLitWsLitAt (cs "bachelor") (cs "of")) ll).map some, cs "Bachelor of"),
   (fun ll => (scanO (degAbbrevAt (cs "b") (cs "sc") true) ll).map some, cs "B.Sc"),
   (fun ll => (scanO (degAbbrevAt (cs "b") (cs "tech") false) ll).map some, cs "B.Tech"),
   (fun ll => (scanO (degAbbrevAt (cs "b") (cs "e") true) ll).map some, cs "B.E"),
   (fun ll => (scanO (degAbbrevAt (cs "m") (cs "sc") true) ll).map some, cs "M.Sc"),
   (fun ll => (scanO (degAbbrevAt (cs "m") (cs "tech") false) ll).map some, cs "M.Tech"),
   (fun ll => if isSubL (cs "mba") ll then some none else none, cs "MBA"),
   (fun ll => (scanO (degLitWsLitAt (cs "diploma") (cs "in")) ll).map some, cs "Diploma")]

/-- Apply the first matching degree pattern to an open education record. -/
def applyDegree (e : EduInfo) (line : List Char) : EduInfo :=
  let ll := lowerL line
  match degreePatterns.findSome?
      (fun pr => (pr.1 ll).map (fun grp => (pr.2, grp))) with
  | some (deg, grp) =>
    let e := { e with degree := some deg }
    (match grp with
     | some g => if g.isEmpty then e else { e with field := some (pyStrip g) }
     | none => e)
  | none => e

/-- `re.search(r'(\d{4})', line)`: the first run of four digits. -/
def searchFourDigits : List Char → Option (List Char)
  | [] => none
  | c :: t => if fourDigitsAt (c :: t) then some ((c :: t).take 4) else searchFourDigits t

def applyYear (e : EduInfo) (line : List Char) : EduInfo :=
  match searchFourDigits line with
  | some y => { e with year := some y }
  | none => e

/-- `\d+\.?\d*` at one position: one digit run, optionally a dot and a
second run. -/
def numberAt (s : List Char) : Option (List Char) :=
  let d1 := s.takeWhile Char.isDigit
  if d1.isEmpty then none
  else
    match s.drop d1.length with
    | '.' :: r => some (d1 ++ '.' :: r.takeWhile Char.isDigit)
    | _ => some d1

/-- `(cgpa|gpa)[\s:]*(\d+\.?\d*)` at one position of the lowercased line. -/
def cgpaAt (s : List Char) : Option (List Char × List Char) :=
  let tryKey : List Char → Option (List Char) := fun key =>
    (dropLit key s).bind fun r =>
      (numberAt (r.dropWhile (fun c => pyWsB c || c = ':'))).map fun n => n
  match tryKey (cs "cgpa") with
  | some n => some (cs "cgpa", n)
  | none =>
    match tryKey (cs "gpa") with
    | some n => some (cs "gpa", n)
    | none => none

def applyCgpa (e : EduInfo) (line : List Char) : EduInfo :=
  match scanO cgpaAt (lowerL line) with
  | some (key, n) => { e with cgpa := some (upperL key ++ cs ": " ++ n) }
  | none => e

/-- `(\d+\.?\d*)%` at one position. -/
def pctAt (s : List Char) : Option (List Char) :=
  (numberAt s).bind fun n =>
    if (s.drop n.length).head? = some '%' then some n else none

def applyPct (e : EduInfo) (line : List Char) : EduInfo :=
  match scanO pctAt line with
  | some n => { e with cgpa := some (cs "Percentage: " ++ n ++ cs "%") }
  | none => e

/-- The line-mode loop of `extract_education`. -/
def eduGo (acc : List EduInfo) (cur : Option EduInfo) : List (List Char) → List EduInfo
  | [] =>
    (match cur with
     | some e => acc ++ [e]
     | none => acc)
  | l :: rest =>
    let line := pyStrip l
    if line.isEmpty || decide (line.length < 3) then eduGo acc cur rest
    else
      match institutionSearch line with
      | some inst =>
        let acc2 :=
          match cur with
          | some e => acc ++ [e]
          | none => acc
        eduGo acc2
          (some { institution := some inst, degree := some [], field := some [],
                  year := some [], cgpa := some [], raw_text := some line }) rest
      | none =>
        match cur with
        | none => eduGo acc none rest
        | some e =>
          eduGo acc (some (applyPct (applyCgpa (applyYear (applyDegree e line) line) line) line)) rest

/-- `extract_education`. -/
def extract_education (text : List Char) : List EduInfo :=
  let education_text := extract_section_content text SKind.education
  if education_text.isEmpty then []
  else
    let t := extract_education_from_tables education_text
    if !t.isEmpty then t
    else eduGo [] none (splitNl education_text)

/-! ## Table normalizer and PDF extraction chain (`process_table_data`,
`extract_tables_from_blocks`, `extract_text_from_pdf`) -/

/-- A table cell as produced by the table library: `none` models Python
`None`. -/
def cellStrip : Option (List Char) → List Char
  | none => []
  | some c => pyStrip c

/-- One data row of `process_table_data` (`row_num` is the 0-based index in
the iterated row list). -/
def tableRowLine (headers : List (List Char)) (row_num : Nat)
    (row : List (Option (List Char))) : List Char :=
  if !row.isEmpty && row.any (fun c => !(cellStrip c).isEmpty) then
    let row_data := (row.enum).filterMap
      (fun p =>
        let cell_text := cellStrip p.2
        if cell_text.isEmpty then none
        else
          let header :=
            match headers.get? p.1 with
            | some h => if h.isEmpty then cs "Col" ++ natStr (p.1 + 1) else h
            | none => cs "Col" ++ natStr (p.1 + 1)
          some (header ++ cs ": " ++ cell_text))
    if !row_data.isEmpty then
      cs "Row " ++ natStr (row_num + 1) ++ cs ": " ++
        List.intercalate (cs " | ") row_data ++ cs "\n"
    else []
  else []

/-- `process_table_data` (the page and table numbers are accepted for
signature fidelity but unused, as in the source). -/
def process_table_data (table : List (List (Option (List Char))))
    (_page_num _table_num : Nat) : List Char :=
  match table with
  | [] => []
  | r0 :: rest =>
    let headers := if !r0.isEmpty then r0.map cellStrip else []
    let headerLine :=
      if !r0.isEmpty then cs "Headers: " ++ List.intercalate (cs " | ") headers ++ cs "\n"
      else []
    let rows := if table.length > 1 then rest else table
    headerLine ++ (rows.enum.map (fun p => tableRowLine headers p.1 p.2)).flatten

/-- A `TableRecord` appended to `tables_data` by the pdfplumber strategy. -/
structure PTableRec where
  page : Nat
  table_num : Nat
  data : List (List (Option (List Char)))
  processed_text : List Char
deriving DecidableEq

/-- One page as seen by the pdfplumber strategy: the result of
`page.extract_text()` (possibly `None`) and of `page.extract_tables()`. -/
structure PPage where
  pageText : Option (List Char)
  tables : List (List (List (Option (List Char))))
deriving DecidableEq

def pageMarker (n : Nat) : List Char :=
  cs "\n--- Page " ++ natStr n ++ cs " ---\n"

def tableMarker (t p : Nat) : List Char :=
  cs "\n--- Table " ++ natStr t ++ cs " on Page " ++ natStr p ++ cs " ---\n"

/-- The per-page body of the pdfplumber strategy. Note: the source appends
`tables_data.append(...)` *after* the per-table loop, so only the last table
of a page yields a `TableRecord` (its loop variables are reused). -/
def pdfplumberPage (page_num : Nat) (pg : PPage) : List Char × List PTableRec :=
  let textPart :=
    match pg.pageText with
    | some pt => if !pt.isEmpty then pageMarker (page_num + 1) ++ pt else []
    | none => []
  let tablesText :=
    (pg.tables.enum.map
      (fun p => tableMarker (p.1 + 1) (page_num + 1) ++
        process_table_data p.2 (page_num + 1) (p.1 + 1))).flatten
  let recs :=
    if !pg.tables.isEmpty then
      let lastTable := (pg.tables.getLast?).getD []
      [{ page := page_num + 1
         table_num := pg.tables.length
         data := lastTable
         processed_text := process_table_data lastTable (page_num + 1) pg.tables.length }]
    else []
  (textPart ++ tablesText, recs)

/-- The whole pdfplumber strategy over its page list. -/
def pdfplumberExtract (pages : List PPage) : List Char × List PTableRec :=
  (pages.enum.foldl
    (fun acc p =>
      let r := pdfplumberPage p.1 p.2
      (acc.1 ++ r.1, acc.2 ++ r.2))
    ([], []))

/-- A text span inside a PyMuPDF line dictionary (`'text' in span`). -/
structure FSpan where
  txt : Option (List Char)
deriving DecidableEq

/-- A PyMuPDF line: bounding box `(x, y)` and optional spans. Coordinates
are modelled as integers (the source only compares them and takes a
difference below a tolerance of 5). -/
structure FLine where
  x : Int
  y : Int
  spans : Option (List FSpan)
deriving DecidableEq

/-- A PyMuPDF block (`'lines' in block`). -/
structure FBlock where
  lines : Option (List FLine)
deriving DecidableEq

/-- One cell gathered while clustering text fragments into rows. -/
structure RowCell where
  text : List Char
  x : Int
  y : Int
deriving DecidableEq

/-- Stable insertion into a list sorted by `x` (Python `sorted` is stable:
an equal key goes after the existing entries). -/
def insertByX (a : RowCell) : List RowCell → List RowCell
  | [] => [a]
  | b :: bs => if b.x ≤ a.x then b :: insertByX a bs else a :: b :: bs

def sortByX (row : List RowCell) : List RowCell :=
  row.foldl (fun acc a => insertByX a acc) []

/-- The flat list of non-blank text lines (with coordinates) of a blocks
dictionary, in traversal order. -/
def blockLines (blocks : List FBlock) : List RowCell :=
  blocks.foldl
    (fun acc b =>
      match b.lines with
      | none => acc
      | some ls =>
        ls.foldl
          (fun acc2 ln =>
            match ln.spans with
            | none => acc2
            | some sps =>
              let line_text := (sps.map (fun sp => sp.txt.getD [])).flatten
              if (pyStrip line_text).isEmpty then acc2
              else acc2 ++ [{ text := pyStrip line_text, x := ln.x, y := ln.y }])
          acc)
    []

/-- The row-clustering loop of `extract_tables_from_blocks`: fragments whose
`y` differs by less than 5 from the previous fragment join the same row. -/
def clusterRowsGo (currentRow : List RowCell) (currentY : Option Int) :
    List RowCell → List (List RowCell)
  | [] => if currentRow.isEmpty then [] else [sortByX currentRow]
  | c :: rest =>
    match currentY with
    | none => clusterRowsGo (currentRow ++ [c]) (some c.y) rest
    | some cy =>
      if (c.y - cy).natAbs < 5 then clusterRowsGo (currentRow ++ [c]) (some c.y) rest
      else
        (if currentRow.isEmpty then [] else [sortByX currentRow]) ++
          clusterRowsGo [c] (some c.y) rest

/-- `extract_tables_from_blocks` (`none` models both a falsy argument and a
missing `'blocks'` key). -/
def extract_tables_from_blocks (blocks : Option (List FBlock)) (_page_num : Nat) :
    List Char :=
  match blocks with
  | none => []
  | some bs =>
    let rows := clusterRowsGo [] none (blockLines bs)
    (rows.filterMap
      (fun row =>
        if row.length > 1 then
          some (List.intercalate (cs " | ") (row.map (fun c => c.text)) ++ cs "\n")
        else none)).flatten

/-- One page as seen by the PyMuPDF strategy: `page.get_text()` (a string,
possibly empty) and the blocks dictionary. -/
structure FPage where
  pageText : List Char
  blocks : Option (List FBlock)
deriving DecidableEq

/-- The text contribution of one PyMuPDF page. -/
def fitzPageText (page_num : Nat) (pg : FPage) : List Char :=
  (if !pg.pageText.isEmpty then pageMarker (page_num + 1) ++ pg.pageText else []) ++
  (let table_text := extract_tables_from_blocks pg.blocks (page_num + 1)
   if !table_text.isEmpty then
     cs "\n--- Structured Content Page " ++ natStr (page_num + 1) ++ cs " ---\n" ++ table_text
   else [])

/-- The whole PyMuPDF strategy over its page list. -/
def fitzExtract (pages : List FPage) : List Char :=
  (pages.enum.map (fun p => fitzPageText p.1 p.2)).flatten

/-- The PyPDF2 strategy: page texts concatenated with no markers. -/
def pypdf2Extract (pages : List (Option (List Char))) : List Char :=
  (pages.map (fun pt =>
    match pt with
    | some t => if !t.isEmpty then t else []
    | none => [])).flatten

/-- Behaviour of one extraction strategy: the pages it managed to process
before either completing (`raised = false`) or raising (`raised = true`,
which the source swallows). An unusable library or unreadable file is the
special case of raising with no pages processed. -/
structure Strat1B where
  pages : List PPage
  raised : Bool

structure Strat2B where
  pages : List FPage
  raised : Bool

structure Strat3B where
  pages : List (Option (List Char))
  raised : Bool

/-- `extract_text_from_pdf`: the ordered fallback chain. Text accumulates
across strategies (the source keeps appending to the same `text` variable);
an early `return` happens only when a strategy completed without raising and
the accumulated text is non-blank; exceptions skip that check; the final
return is unconditional. `tables_data` is only ever filled by strategy 1. -/
def extract_text_from_pdf (b1 : Strat1B) (b2 : Strat2B) (b3 : Strat3B) :
    List Char × List PTableRec :=
  let r1 := pdfplumberExtract b1.pages
  if !b1.raised && !(pyStrip r1.1).isEmpty then r1
  else
    let t2 := r1.1 ++ fitzExtract b2.pages
    if !b2.raised && !(pyStrip t2).isEmpty then (t2, r1.2)
    else (t2 ++ pypdf2Extract b3.pages, r1.2)

/-! ## Contact & name extractors (`extract_contact_info`, `extract_name`,
`is_valid_name`) -/

structure ContactInfo where
  email : Option (List Char) := none
  phone : Option (List Char) := none
  linkedin : Option (List Char) := none
  github : Option (List Char) := none
deriving DecidableEq

/-- The local-part class `[A-Za-z0-9._%+-]` of the e-mail pattern. -/
def emailLocalChar (c : Char) : Bool :=
  c.isAlpha || c.isDigit || c = '.' || c = '_' || c = '%' || c = '+' || c = '-'

/-- The domain class `[A-Za-z0-9.-]` of the e-mail pattern. -/
def emailDomChar (c : Char) : Bool := c.isAlpha || c.isDigit || c = '.' || c = '-'

/-- Backtracking over the domain run for `\.[A-Za-z]{2,}\b`: try each dot of
the domain from the right (greedy `+` gives back as little as possible);
`nextC` is the first character after the domain run. -/
def emailDomSplit (loc dom : List Char) (nextC : Option Char) :
    List Nat → Option (List Char)
  | [] => none
  | p :: ps =>
    if p = 0 then emailDomSplit loc dom nextC ps
    else
      let letters := (dom.drop (p + 1)).takeWhile Char.isAlpha
      let m := letters.length
      let after := if p + 1 + m < dom.length then dom.get? (p + 1 + m) else nextC
      if decide (2 ≤ m) && !isWordO after then
        some (loc ++ '@' :: (dom.take p ++ '.' :: letters))
      else emailDomSplit loc dom nextC ps

/-- `\b[A-Za-z0-9._%+-]+@[A-Za-z0-9.-]+\.[A-Za-z]{2,}\b` at one position. -/
def emailAt (prev : Option Char) (s : List Char) : Option (List Char) :=
  match s with
  | [] => none
  | c :: _ =>
    if !boundaryB prev (some c) then none
    else
      let loc := s.takeWhile emailLocalChar
      if loc.isEmpty then none
      else
        match s.drop loc.length with
        | '@' :: r =>
          let dom := r.takeWhile emailDomChar
          let dots := ((dom.enum.filter (fun p => p.2 = '.')).map (fun p => p.1)).reverse
          emailDomSplit loc dom (r.drop dom.length).head? dots
        | _ => none

/-- First match in a list of alternatives. -/
def firstSome {α β : Type} (f : α → Option β) : List α → Option β
  | [] => none
  | a :: rest =>
    match f a with
    | some b => some b
    | none => firstSome f rest

/-- A separator `[-.\s]` of the phone patterns. -/
def phoneSep (c : Char) : Bool := c = '-' || c = '.' || pyWsB c

/-- Consume an optional separator (deterministic: the next pattern item is
always a digit or a bracket, never a separator). -/
def optSep (s : List Char) : List Char :=
  match s with
  | c :: t => if phoneSep c then t else s
  | [] => s

/-- Exactly `n` digits at the head. -/
def takeDigits (n : Nat) (s : List Char) : Option (List Char × List Char) :=
  let d := s.take n
  if d.length = n && d.all Char.isDigit then some (d, s.drop n) else none

/-- `\+?91[-.\s]?(\d{5})[-.\s]?(\d{5})` at one position. -/
def phone1At (s : List Char) : Option (List Char) :=
  let s := optChar '+' s
  (dropLit (cs "91") s).bind fun r =>
  (takeDigits 5 (optSep r)).bind fun p1 =>
  (takeDigits 5 (optSep p1.2)).map fun p2 => p1.1 ++ p2.1

/-- `\+?91[-.\s]?(\d{4})[-.\s]?(\d{3})[-.\s]?(\d{3})` at one position. -/
def phone2At (s : List Char) : Option (List Char) :=
  let s := optChar '+' s
  (dropLit (cs "91") s).bind fun r =>
  (takeDigits 4 (optSep r)).bind fun p1 =>
  (takeDigits 3 (optSep p1.2)).bind fun p2 =>
  (takeDigits 3 (optSep p2.2)).map fun p3 => p1.1 ++ p2.1 ++ p3.1

/-- The part of the US pattern after the optional `+` and `1`. -/
def phone3Core (s : List Char) : Option (List Char) :=
  let s := optChar '(' (optSep s)
  (takeDigits 3 s).bind fun p1 =>
  let r := optSep (optChar ')' p1.2)
  (takeDigits 3 r).bind fun p2 =>
  (takeDigits 4 (optSep p2.2)).map fun p3 => p1.1 ++ p2.1 ++ p3.1

/-- `\+?1?[-.\s]?\(?(\d{3})\)?[-.\s]?(\d{3})[-.\s]?(\d{4})` at one position
(the optional `1` genuinely backtracks: with it consumed first, without it
otherwise). -/
def phone3At (s : List Char) : Option (List Char) :=
  let s := optChar '+' s
  match s with
  | '1' :: t =>
    (match phone3Core t with
     | some r => some r
     | none => phone3Core s)
  | _ => phone3Core s

/-- `(\d{10})` at one position. -/
def phone4At (s : List Char) : Option (List Char) :=
  (takeDigits 10 s).map fun p => p.1

/-- `\+(\d{1,3})[-.\s]?(\d{4,5})[-.\s]?(\d{4,6})` at one position, with the
greedy counted repetitions tried longest first. -/
def phone5At (s : List Char) : Option (List Char) :=
  match s with
  | '+' :: t =>
    firstSome
      (fun n1 =>
        (takeDigits n1 t).bind fun p1 =>
        firstSome
          (fun n2 =>
            (takeDigits n2 (optSep p1.2)).bind fun p2 =>
            firstSome
              (fun n3 =>
                (takeDigits n3 (optSep p2.2)).map fun p3 => p1.1 ++ p2.1 ++ p3.1)
              [6, 5, 4])
          [5, 4])
      [3, 2, 1]
  | _ => none

/-- The ordered phone patterns of `extract_contact_info`: each pattern is
searched over the whole text before the next is tried; the digits of all
captured groups are concatenated. -/
def phoneSearch (text : List Char) : Option (List Char) :=
  firstSome (fun f => scanO f text)
    [phone1At, phone2At, phone3At, phone4At, phone5At]

/-- The username class `[A-Za-z0-9_-]` of the LinkedIn/GitHub patterns. -/
def urlUserChar (c : Char) : Bool := c.isAlpha || c.isDigit || c = '_' || c = '-'

/-- `(https?://)?(www\.)?SITE[A-Za-z0-9_-]+` at one position, returning the
whole matched span (`group(0)`); the scheme and `www.` alternatives are laid
out explicitly (consuming first, as the greedy optional groups do). -/
def urlAt2 (site : List Char) (s : List Char) : Option (List Char) :=
  let core := fun (rest : List Char) =>
    (match dropLit (cs "www.") rest with
     | some r =>
       ((dropLit site r).bind fun r2 =>
         let u := r2.takeWhile urlUserChar
         if u.isEmpty then none else some (cs "www." ++ site ++ u))
     | none =>
       (dropLit site rest).bind fun r2 =>
         let u := r2.takeWhile urlUserChar
         if u.isEmpty then none else some (site ++ u))
  match dropLit (cs "https://") s with
  | some r => (core r).map fun m => cs "https://" ++ m
  | none =>
    match dropLit (cs "http://") s with
    | some r => (core r).map fun m => cs "http://" ++ m
    | none => core s

/-- `extract_contact_info`. -/
def extract_contact_info (text : List Char) : ContactInfo :=
  { email := scanPrev emailAt none text
    phone := phoneSearch text
    linkedin := scanO (urlAt2 (cs "linkedin.com/in/")) text
    github := scanO (urlAt2 (cs "github.com/")) text }

/-- `re.search(r'\+?\d{10}', line)`: ten consecutive digits somewhere. -/
def hasTenDigits : List Char → Bool
  | [] => false
  | c :: t => ((c :: t).take 10).length = 10 && ((c :: t).take 10).all Char.isDigit
      || hasTenDigits t

/-- `page \d+` / `table \d+`: a literal followed by at least one digit. -/
def litThenDigit (lit : List Char) : List Char → Bool
  | [] => false
  | c :: t =>
    (lit.isPrefixOf (c :: t) &&
      (match ((c :: t).drop lit.length).head? with
       | some d => d.isDigit
       | none => false)) || litThenDigit lit t

/-- `row \d+:`: the literal, at least one digit, then a colon. -/
def rowNumColon : List Char → Bool
  | [] => false
  | c :: t =>
    ((cs "row ").isPrefixOf (c :: t) &&
      (let r := (c :: t).drop 4
       let d := r.takeWhile Char.isDigit
       !d.isEmpty && (r.drop d.length).head? = some ':')) || rowNumColon t

/-- The denylist of `extract_name`, applied to the lowercased line. -/
def nameSkipLine (ll : List Char) : Bool :=
  ll.contains '@' || hasTenDigits ll ||
  [cs "resume", cs "cv", cs "curriculum vitae", cs "software", cs "engineer",
   cs "developer", cs "summary", cs "contact", cs "skills", cs "experience",
   cs "education", cs "objective", cs "location"].any (fun w => isSubL w ll) ||
  litThenDigit (cs "page ") ll || litThenDigit (cs "table ") ll ||
  isSubL (cs "headers:") ll || rowNumColon ll || litThenDigit (cs "col") ll

/-- The apostrophe character (ASCII 39). -/
def apoChar : Char := Char.ofNat 39

/-- `is_valid_name`. -/
def is_valid_name (name : List Char) : Bool :=
  let ws := pyWords name
  if name.isEmpty || decide (ws.length < 2) then false
  else
    ws.all (fun w =>
      pyIsAlpha (w.filter (fun c => c ≠ '-' && c ≠ apoChar)) &&
      (match w.head? with
       | some c => c.isUpper
       | none => false))

/-- One word of the capitalised-words heuristic of `extract_name`. -/
def capAlphaWord (w : List Char) : Bool :=
  (match w.head? with
   | some c => c.isUpper
   | none => false) &&
  pyIsAlpha (w.filter (fun c => c ≠ '-' && c ≠ apoChar))

/-- The line scan of `extract_name` over the first lines. -/
def nameFromLines : List (List Char) → Option (List Char)
  | [] => none
  | l :: rest =>
    let line := pyStrip l
    if line.isEmpty || decide (line.length < 3) then nameFromLines rest
    else if nameSkipLine (lowerL line) then nameFromLines rest
    else
      let colonName :=
        if line.contains ':' then
          let left := pyStrip (line.takeWhile (fun c => c ≠ ':'))
          let right := pyStrip ((line.dropWhile (fun c => c ≠ ':')).drop 1)
          if [cs "name", cs "candidate name", cs "full name"].contains (lowerL left) &&
              is_valid_name right then some right
          else none
        else none
      match colonName with
      | some n => some n
      | none =>
        let ws := pyWords line
        if decide (2 ≤ ws.length) && decide (ws.length ≤ 4) && ws.all capAlphaWord then
          some line
        else nameFromLines rest

/-- `extract_name`. The spaCy model is an external collaborator; it is
modelled from the spec (§6) as an optional function from a text prefix to an
ordered list of `(entity text, label)` spans — `none` models a parser whose
model failed to load. -/
def extract_name (nlp : Option (List Char → List (List Char × List Char)))
    (text : List Char) : Option (List Char) :=
  match nameFromLines ((splitNl text).take 15) with
  | some n => some n
  | none =>
    match nlp with
    | none => none
    | some f =>
      ((f (text.take 2000)).filter
        (fun ent => ent.2 = cs "PERSON" && decide (2 ≤ (pyWords ent.1).length))).head?.map
        (fun ent => ent.1)

/-! ## Top-level projects and achievements (`extract_projects`,
`extract_achievements`) -/

structure TopProject where
  name : List Char
  description : List Char
  technologies : List (List Char)
deriving DecidableEq

/-- The line loop of `extract_projects`. -/
def projGo (acc : List TopProject) (cur : Option TopProject) :
    List (List Char) → List TopProject
  | [] =>
    (match cur with
     | some p => acc ++ [p]
     | none => acc)
  | l :: rest =>
    let line := pyStrip l
    if line.isEmpty then projGo acc cur rest
    else if line.contains ':' && decide (line.length < 100) then
      let acc2 :=
        match cur with
        | some p => acc ++ [p]
        | none => acc
      projGo acc2
        (some { name := pyStrip (line.takeWhile (fun c => c ≠ ':'))
                description := pyStrip ((line.dropWhile (fun c => c ≠ ':')).drop 1)
                technologies := [] }) rest
    else
      match cur with
      | some p =>
        projGo acc
          (some { p with description :=
            if p.description.isEmpty then line else p.description ++ ' ' :: line }) rest
      | none => projGo acc none rest

/-- `extract_projects`. -/
def extract_projects (text : List Char) : List TopProject :=
  let projects_text := extract_section_content text SKind.projects
  if projects_text.isEmpty then [] else projGo [] none (splitNl projects_text)

/-- `extract_achievements`: every non-blank line longer than 10 characters,
de-bulleted. -/
def extract_achievements (text : List Char) : List (List Char) :=
  let achievements_text := extract_section_content text SKind.achievements
  if achievements_text.isEmpty then []
  else
    (splitNl achievements_text).foldl
      (fun acc l =>
        let line := pyStrip l
        if !line.isEmpty && decide (10 < line.length) then
          let a := deBullet line
          if a.isEmpty then acc else acc ++ [a]
        else acc)
      []

/-! ## Resume assembler (`parse_resume`) -/

/-- The aggregate record built by `parse_resume` on success. -/
structure ParsedData where
  name : Option (List Char)
  contact_info : ContactInfo
  experience : List JobInfo
  education : List EduInfo
  skills : List (List Char)
  projects : List TopProject
  achievements : List (List Char)
  tables_detected : Nat
  tables_data : Option (List PTableRec)
  raw_text : List Char
  parsed_date : List Char
deriving DecidableEq

/-- `parse_resume` returns either the error dictionary or the full record. -/
inductive ParseResult
  | err (msg : List Char)
  | ok (d : ParsedData)
deriving DecidableEq

/-- `parse_resume`, given the already-extracted text and table records (the
file read / PDF chain happens before this point), the external NLP
collaborator and the current timestamp (`datetime.now().isoformat()`). -/
def parse_resume (nlp : Option (List Char → List (List Char × List Char)))
    (now : List Char) (text : List Char) (tables_data : List PTableRec) : ParseResult :=
  if (pyStrip text).isEmpty then ParseResult.err (cs "Could not extract text from file")
  else
    ParseResult.ok
      { name := extract_name nlp text
        contact_info := extract_contact_info text
        experience := extract_experience text
        education := extract_education text
        skills := extract_skills text
        projects := extract_projects text
        achievements := extract_achievements text
        tables_detected := tables_data.length
        tables_data := if !tables_data.isEmpty then some tables_data else none
        raw_text := text
        parsed_date := now }

/-! ## Comparison variant and concrete fixtures -/

/-- Variant of the line-mode loop that never accumulates bullet text while no
project is in progress (stated from the claim that such orphan bullet text is
discarded); everything else is identical to `expGo`. -/
def expGoB (acc : List JobInfo) (cj : Option JobInfo) (cp : Option ProjInfo)
    (pd : List (List Char)) : List (List Char) → List JobInfo
  | [] => flushAcc acc (flushProj cj cp pd)
  | l :: rest =>
    let line := pyStrip l
    if line.isEmpty then expGoB acc cj cp pd rest
    else if is_job_header line then
      expGoB (flushAcc acc (flushProj cj cp pd))
        (some (parse_job_header line rest)) none [] rest
    else if is_project_header line then
      expGoB acc (flushProj cj cp pd) (some (parse_project_header line)) [] rest
    else if isBulletLine line then
      if cp.isSome then
        let bt := deBullet line
        expGoB acc cj cp (if bt.isEmpty then pd else pd ++ [bt]) rest
      else expGoB acc cj cp pd rest
    else if cp.isSome && decide (20 < line.length) then
      expGoB acc cj cp (pd ++ [line]) rest
    else expGoB acc cj cp pd rest

/-- The line-mode experience parser with orphan bullet lines ignored. -/
def experienceLineModeB (lines : List (List Char)) : List JobInfo :=
  expGoB [] none none [] lines

/-- The experience-section text of the job/project nesting scenario. -/
def c2text : List Char :=
  cs "Acme Corp, Bangalore (2020-2022)\nSenior Engineer\nProject: Inventory System (Jan 2021)\n• Built REST API\n• Reduced latency"

/-- The two-row table of the normalization scenario. -/
def c5table : List (List (Option (List Char))) :=
  [[some (cs "Name"), some (cs "Skill")], [some (cs "Alice"), some (cs "Go")]]

/-- A two-line text whose first line is a matching `Headers:` marker line and
whose second line is a matching plain header line. -/
def c3text : List Char := cs "Headers: skills\nskills"

/-- A text with a plain `skills` header and no `headers:` marker lines. -/
def c3wtext : List Char := cs "skills\nfoo"

/-- The end-to-end scenario document, with each section given as a header
line followed by its content line. -/
def c6doc : List Char :=
  cs "Skills:\nPython, Docker, AWS\nEducation:\nBachelor of Technology in Computer Science, XYZ University, 2019"

/-- A single pdfplumber page from which two tables were extracted. -/
def c7pages : List PPage :=
  [{ pageText := some (cs "John Doe CV"),
     tables := [[[some (cs "A")]], [[some (cs "B")]]] }]

/-- An experience-section text consisting of a single job header line. -/
def c9text : List Char := cs "Acme Corp, Bangalore (2020-2022)"

/-- A skills section in which one token occurs twice with different casings. -/
def c4wtext : List Char := cs "Skills\nPython\npython"

/-! ## Supporting lemmas -/

theorem flushProj_none (cj : Option JobInfo) (pd : List (List Char)) :
    flushProj cj none pd = cj := by
  cases pd <;> rfl

/-- With no project in progress, the description buffer cannot influence the
line-mode loop. -/
theorem expGo_pd_irrel (ls : List (List Char)) :
    ∀ (acc : List JobInfo) (cj : Option JobInfo) (pd₁ pd₂ : List (List Char)),
      expGo acc cj none pd₁ ls = expGo acc cj none pd₂ ls := by
  induction ls with
  | nil =>
    intro acc cj pd₁ pd₂
    simp [expGo, flushProj_none]
  | cons l rest ih =>
    intro acc cj pd₁ pd₂
    simp only [expGo, flushProj_none]
    by_cases h1 : (pyStrip l).isEmpty = true
    · simp only [h1, if_true]
      exact ih acc cj pd₁ pd₂
    · simp only [h1, Bool.false_eq_true, if_false]
      by_cases h2 : is_job_header (pyStrip l) = true
      · simp only [h2, if_true]
      · simp only [h2, Bool.false_eq_true, if_false]
        by_cases h3 : is_project_header (pyStrip l) = true
        · simp only [h3, if_true]
        · simp only [h3, Bool.false_eq_true, if_false]
          by_cases h4 : isBulletLine (pyStrip l) = true
          · simp only [h4, if_true]
            exact ih acc cj _ _
          · simp only [h4, Bool.false_eq_true, if_false, Option.isSome_none, Bool.false_and]
            exact ih acc cj pd₁ pd₂

/-- The line-mode loop coincides with the variant that ignores bullet lines
seen while no project is in progress. -/
theorem expGo_eq_expGoB (ls : List (List Char)) :
    ∀ (acc : List JobInfo) (cj : Option JobInfo) (cp : Option ProjInfo)
      (pd : List (List Char)),
      expGo acc cj cp pd ls = expGoB acc cj cp pd ls := by
  induction ls with
  | nil => intro acc cj cp pd; rfl
  | cons l rest ih =>
    intro acc cj cp pd
    simp only [expGo, expGoB]
    by_cases h1 : (pyStrip l).isEmpty = true
    · simp only [h1, if_true]
      exact ih acc cj cp pd
    · simp only [h1, Bool.false_eq_true, if_false]
      by_cases h2 : is_job_header (pyStrip l) = true
      · simp only [h2, if_true]
        exact ih _ _ none []
      · simp only [h2, Bool.false_eq_true, if_false]
        by_cases h3 : is_project_header (pyStrip l) = true
        · simp only [h3, if_true]
          exact ih _ _ _ []
        · simp only [h3, Bool.false_eq_true, if_false]
          by_cases h4 : isBulletLine (pyStrip l) = true
          · simp only [h4, if_true]
            cases cp with
            | some p =>
              simp only [Option.isSome_some, if_true]
              exact ih acc cj (some p) _
            | none =>
              simp only [Option.isSome_none, Bool.false_eq_true, if_false]
              exact (expGo_pd_irrel rest acc cj _ pd).trans (ih acc cj none pd)
          · simp only [h4, Bool.false_eq_true, if_false]
            by_cases h5 : (cp.isSome && decide (20 < (pyStrip l).length)) = true
            · simp only [h5, if_true]
              exact ih acc cj cp _
            · simp only [h5, Bool.false_eq_true, if_false]
              exact ih acc cj cp pd

/-- The dedup loop of `extract_skills` produces pairwise
case-insensitively-distinct entries, each being the first stripped element of
the collected list with its lowercase form. -/
theorem dedupGo_spec (found : List (List Char)) :
    ∀ seen : List (List Char),
      (dedupSkillsGo seen found).Pairwise (fun a b => lowerL a ≠ lowerL b) ∧
      ∀ x ∈ dedupSkillsGo seen found,
        lowerL x ∉ seen ∧ x ≠ [] ∧
        ((found.map pyStrip).filter (fun y => lowerL y == lowerL x)).head? = some x := by
  induction found with
  | nil =>
    intro seen
    simp [dedupSkillsGo]
  | cons s rest ih =>
    intro seen
    simp only [dedupSkillsGo]
    by_cases hc : lowerL (pyStrip s) ∉ seen ∧ pyStrip s ≠ []
    · simp only [if_pos hc]
      obtain ⟨pw, inv⟩ := ih (lowerL (pyStrip s) :: seen)
      constructor
      · refine List.Pairwise.cons (fun b hb => ?_) pw
        have hb1 := (inv b hb).1
        simp only [List.mem_cons, not_or] at hb1
        exact fun h => hb1.1 h.symm
      · intro x hx
        rcases List.mem_cons.mp hx with hx | hx
        · subst hx
          refine ⟨hc.1, hc.2, ?_⟩
          simp [List.filter_cons]
        · obtain ⟨h1, h2, h3⟩ := inv x hx
          simp only [List.mem_cons, not_or] at h1
          refine ⟨h1.2, h2, ?_⟩
          have hne : (lowerL (pyStrip s) == lowerL x) = false := by
            simp only [beq_eq_false_iff_ne, ne_eq]
            exact fun h => h1.1 h.symm
          simpa [List.filter_cons, hne] using h3
    · simp only [if_neg hc]
      obtain ⟨pw, inv⟩ := ih seen
      refine ⟨pw, fun x hx => ?_⟩
      obtain ⟨h1, h2, h3⟩ := inv x hx
      refine ⟨h1, h2, ?_⟩
      have hne : (lowerL (pyStrip s) == lowerL x) = false := by
        simp only [beq_eq_false_iff_ne, ne_eq]
        rcases Decidable.not_and_iff_or_not.mp hc with hmem | hemp
        · have hmem' : lowerL (pyStrip s) ∈ seen := Decidable.not_not.mp hmem
          exact fun h => h1 (h ▸ hmem')
        · have hs : pyStrip s = [] := Decidable.not_not.mp hemp
          intro h
          apply h2
          have : lowerL x = [] := by rw [← h, hs]; rfl
          simpa [lowerL] using this
      simpa [List.filter_cons, hne] using h3

/-! ## Claim theorems -/

/-- C1: for every input whose extracted text is blank after trimming,
`parse_resume` returns exactly the error result
`{"error": "Could not extract text from file"}`; the error constructor
carries no entity fields, so no name/contact/experience/education/skills/
projects/achievements values are produced. -/
theorem C1_blank_text_error
    (nlp : Option (List Char → List (List Char × List Char)))
    (now text : List Char) (tables_data : List PTableRec)
    (h : pyStrip text = []) :
    parse_resume nlp now text tables_data =
      ParseResult.err (cs "Could not extract text from file") := by
  simp [parse_resume, h]

theorem C1_blank_text_error_witness :
    pyStrip (cs "  ") = [] ∧
    parse_resume none (cs "2026-10-12T00:00:00") (cs "  ") [] =
      ParseResult.err (cs "Could not extract text from file") :=
  ⟨by decide, C1_blank_text_error none (cs "2026-10-12T00:00:00") (cs "  ") [] (by decide)⟩

/-- C2: on the given experience-section text, the line-mode experience parser
produces exactly one job record with exactly one nested project named
`Inventory System`, of duration `Jan 2021`, with description
`Built REST API Reduced latency`. -/
theorem C2_job_project_nesting :
    (experienceFromSection c2text).map
        (fun j => j.projects.map
          (fun ps => ps.map (fun p => (p.name, p.duration, p.description)))) =
      [some [(some (cs "Inventory System"), some (cs "Jan 2021"),
              some (cs "Built REST API Reduced latency"))]] := by
  rfl

/-- C5: for the two-row table `[["Name","Skill"],["Alice","Go"]]`, the
normalized text contains the line `Headers: Name | Skill` immediately
followed by the line `Row 1: Name: Alice | Skill: Go`. -/
theorem C5_table_normalization :
    [cs "Headers: Name | Skill", cs "Row 1: Name: Alice | Skill: Go"] <:+:
      splitNl (process_table_data c5table 1 1) :=
  ⟨[], [[]], by rfl⟩

/-- C7: evaluating the pdfplumber strategy on a single page with two
extracted tables: both tables are rendered into the text, but only one
`TableRecord` — for the last table — is appended (`tables_data.append` sits
outside the per-table loop), so the record count is 1 while 2 tables were
extracted. -/
theorem C7_one_record_per_page :
    (pdfplumberExtract c7pages).2.length = 1 ∧
    c7pages.foldl (fun a p => a + p.tables.length) 0 = 2 ∧
    (pdfplumberExtract c7pages).2.map (fun r => (r.table_num, r.data)) =
      [(2, [[some (cs "B")]])] :=
  ⟨by rfl, by rfl, by rfl⟩

/-- C8: every strategy-level failure is swallowed (the chain is a total
function into a plain pair) and whenever all three strategies contribute no
text and no tables — they raised on open, or extracted nothing — the
extractor returns `("", [])`. -/
theorem C8_all_strategies_fail (b1 : Strat1B) (b2 : Strat2B) (b3 : Strat3B)
    (h1 : pdfplumberExtract b1.pages = ([], []))
    (h2 : fitzExtract b2.pages = [])
    (h3 : pypdf2Extract b3.pages = []) :
    extract_text_from_pdf b1 b2 b3 = ([], []) := by
  simp [extract_text_from_pdf, h1, h2, h3, pyStrip]

theorem C8_all_strategies_fail_witness :
    extract_text_from_pdf ⟨[], true⟩ ⟨[], true⟩ ⟨[], true⟩ = ([], []) :=
  C8_all_strategies_fail ⟨[], true⟩ ⟨[], true⟩ ⟨[], true⟩ (by rfl) (by rfl) (by rfl)

/-- C9 counterexample: on an experience section consisting of one job header
line, the parser produces one job whose `projects` key is absent (`none`),
not an empty sequence, so not every JobEntry carries a (possibly empty)
projects sequence. -/
theorem C9_counterexample :
    (experienceFromSection c9text).map (fun j => j.projects) = [none] ∧
    (none : Option (List ProjInfo)) ≠ some [] :=
  ⟨by rfl, by decide⟩

/-- C3 counterexample: on `"Headers: skills\nskills"` the recorded boundary
for the skills kind is line 1, although line 0 already matches the policy
(the smallest matching index is 0): a match on a `headers:` line does not
stop the scan and is overwritten by the later match. -/
theorem C3_counterexample :
    find_section_boundaries c3text SKind.skills = some 1 ∧
    lineMatchesPolicy (kindKeywords SKind.skills) (cs "Headers: skills") = true ∧
    leastMatch (lineMatchesPolicy (kindKeywords SKind.skills)) (splitNl c3text) = some 0 :=
  ⟨by rfl, by rfl, by rfl⟩

/-- C6 counterexample: on the end-to-end document the single education entry
has empty degree, field and year (the degree/field/year rules only fire on
lines after the institution line), so the degree is neither `B.Tech` nor
`Bachelor of Technology`, the field is not `Computer Science`, and the year
is not `2019`. -/
theorem C6_counterexample :
    (extract_education c6doc).map (fun e => (e.degree, e.field, e.year)) =
      [(some ([] : List Char), some ([] : List Char), some ([] : List Char))] ∧
    some ([] : List Char) ≠ some (cs "B.Tech") ∧
    some ([] : List Char) ≠ some (cs "Bachelor of Technology") ∧
    some ([] : List Char) ≠ some (cs "2019") :=
  ⟨by rfl, by decide, by decide, by decide⟩

/-- C6 amended: on the end-to-end document, the skills are exactly
`["Python", "Aws", "Docker"]` (curated hits in vocabulary order — `aws`
precedes `docker` — deduplicating the free-form tokens), and exactly one
education entry is produced, whose institution is the regex capture
`Bachelor of Technology in Computer Science, XYZ University` (containing
`XYZ University`) and whose degree, field, year and cgpa are empty strings. -/
theorem C6_amended :
    extract_skills c6doc = [cs "Python", cs "Aws", cs "Docker"] ∧
    extract_education c6doc =
      [{ institution := some (cs "Bachelor of Technology in Computer Science, XYZ University"),
         degree := some [], field := some [], year := some [], cgpa := some [],
         raw_text := some (cs "Bachelor of Technology in Computer Science, XYZ University, 2019") }] ∧
    isSubL (cs "XYZ University")
      (cs "Bachelor of Technology in Computer Science, XYZ University") = true :=
  ⟨by rfl, by rfl, by rfl⟩

/-- C10: in line-mode experience parsing, bullet text accumulated while no
project is in progress (at the start of the section or directly under a job
header) is discarded at the next job or project header and at the end of the
section, so the whole loop is equal to the variant that ignores such orphan
bullet lines: their text never reaches any job's or project's description. -/
theorem C10_orphan_bullets_discarded (lines : List (List Char)) :
    experienceLineMode lines = experienceLineModeB lines :=
  expGo_eq_expGoB lines [] none none []

/-- C4: for every input text, the skills list has no two entries equal
case-insensitively, and each entry is exactly the first stripped occurrence
(in collection order) of its lowercase form among the collected skills, i.e.
it carries the casing of the first occurrence collected. -/
theorem C4_skills_dedup (text : List Char) :
    (extract_skills text).Pairwise (fun a b => lowerL a ≠ lowerL b) ∧
    ∀ s ∈ extract_skills text,
      (((collect_found_skills (extract_section_content text SKind.skills)).map
          pyStrip).filter (fun y => lowerL y == lowerL s)).head? = some s := by
  unfold extract_skills
  by_cases h : (extract_section_content text SKind.skills).isEmpty = true
  · simp [h]
  · simp only [h, Bool.false_eq_true, if_false]
    obtain ⟨pw, inv⟩ :=
      dedupGo_spec (collect_found_skills (extract_section_content text SKind.skills)) []
    exact ⟨pw, fun s hs => (inv s hs).2.2⟩

theorem C4_skills_dedup_witness :
    (extract_skills c4wtext).Pairwise (fun a b => lowerL a ≠ lowerL b) ∧
    (((collect_found_skills (extract_section_content c4wtext SKind.skills)).map
        pyStrip).filter (fun y => lowerL y == lowerL (cs "Python"))).head? =
      some (cs "Python") :=
  ⟨(C4_skills_dedup c4wtext).1, (C4_skills_dedup c4wtext).2 (cs "Python") (by decide)⟩

theorem applyJobRowPart_projects (j : JobInfo) (part : List Char) :
    (applyJobRowPart j part).projects = j.projects := by
  simp only [applyJobRowPart]
  repeat' split
  all_goals rfl

theorem foldl_jobRowParts_projects (parts : List (List Char)) :
    ∀ j : JobInfo, (parts.foldl applyJobRowPart j).projects = j.projects := by
  induction parts with
  | nil => intro j; rfl
  | cons p rest ih =>
    intro j
    simp only [List.foldl_cons]
    rw [ih, applyJobRowPart_projects]

theorem expTablesGo_projects (ls : List (List Char)) :
    ∀ cur : JobInfo, cur.projects = none →
      ∀ j ∈ expTablesGo cur ls, j.projects = none := by
  induction ls with
  | nil =>
    intro cur h j hj
    simp only [expTablesGo] at hj
    split at hj
    · rcases List.mem_singleton.mp hj with rfl; exact h
    · simp at hj
  | cons l rest ih =>
    intro cur h j hj
    simp only [expTablesGo] at hj
    split at hj
    · exact ih cur h j hj
    · split at hj
      · rcases List.mem_append.mp hj with hj | hj
        · split at hj
          · rcases List.mem_singleton.mp hj with rfl; exact h
          · simp at hj
        · refine ih _ ?_ j hj
          rw [foldl_jobRowParts_projects]
          split
          · rfl
          · exact h
      · exact ih cur h j hj

theorem flushProj_ne_nil (cj : Option JobInfo) (cp : Option ProjInfo)
    (pd : List (List Char))
    (h : ∀ j, cj = some j → j.projects ≠ some []) :
    ∀ j', flushProj cj cp pd = some j' → j'.projects ≠ some [] := by
  intro j' hj
  unfold flushProj at hj
  cases cp with
  | none => cases pd <;> exact h j' hj
  | some p =>
    cases pd with
    | nil => exact h j' hj
    | cons d ds =>
      cases cj with
      | none => simp at hj
      | some j0 =>
        simp only [Option.some.injEq] at hj
        subst hj
        simp

theorem parse_job_header_projects (line : List Char) (following : List (List Char)) :
    (parse_job_header line following).projects = none := rfl

theorem mem_flushAcc (acc : List JobInfo) (cj : Option JobInfo)
    (cp : Option ProjInfo) (pd : List (List Char)) (x : JobInfo)
    (hx : x ∈ flushAcc acc (flushProj cj cp pd))
    (hacc : ∀ j ∈ acc, j.projects ≠ some [])
    (hcj : ∀ j, cj = some j → j.projects ≠ some []) :
    x.projects ≠ some [] := by
  cases heq : flushProj cj cp pd with
  | none =>
    rw [heq] at hx
    exact hacc x hx
  | some j0 =>
    rw [heq] at hx
    have hx2 : x ∈ acc ++ [j0] := hx
    rcases List.mem_append.mp hx2 with h | h
    · exact hacc x h
    · rcases List.mem_singleton.mp h with rfl
      exact flushProj_ne_nil cj cp pd hcj x heq

theorem expGo_projects_ne_nil (ls : List (List Char)) :
    ∀ (acc : List JobInfo) (cj : Option JobInfo) (cp : Option ProjInfo)
      (pd : List (List Char)),
      (∀ j ∈ acc, j.projects ≠ some []) →
      (∀ j, cj = some j → j.projects ≠ some []) →
      ∀ j ∈ expGo acc cj cp pd ls, j.projects ≠ some [] := by
  induction ls with
  | nil =>
    intro acc cj cp pd hacc hcj j hj
    simp only [expGo] at hj
    exact mem_flushAcc acc cj cp pd j hj hacc hcj
  | cons l rest ih =>
    intro acc cj cp pd hacc hcj j hj
    simp only [expGo] at hj
    split at hj
    · exact ih acc cj cp pd hacc hcj j hj
    · split at hj
      · refine ih _ _ none [] ?_ ?_ j hj
        · intro x hx
          exact mem_flushAcc acc cj cp pd x hx hacc hcj
        · intro x hx
          cases hx
          rw [parse_job_header_projects]
          simp
      · split at hj
        · refine ih acc _ _ [] hacc ?_ j hj
          exact flushProj_ne_nil cj cp pd hcj
        · split at hj
          · exact ih acc cj cp _ hacc hcj j hj
          · split at hj
            · exact ih acc cj cp _ hacc hcj j hj
            · exact ih acc cj cp pd hacc hcj j hj

/-- C9 amended: every JobEntry's `projects` field, when present, holds a
non-empty ordered sequence of projects; a job that owns zero projects (and
every table-mode job) omits the field entirely rather than carrying an empty
sequence. Formally: no produced job has `projects = some []`. -/
theorem C9_amended (text : List Char) :
    ∀ j ∈ extract_experience text, j.projects ≠ some [] := by
  unfold extract_experience
  by_cases h : (extract_section_content text SKind.experience).isEmpty = true
  · simp [h]
  · simp only [h, Bool.false_eq_true, if_false]
    intro j hj
    simp only [experienceFromSection] at hj
    split at hj
    · have := expTablesGo_projects
        (splitNl (extract_section_content text SKind.experience)) emptyJob rfl j hj
      rw [this]
      simp
    · exact expGo_projects_ne_nil _ [] none none []
        (fun x hx => nomatch hx) (fun x hx => nomatch hx) j hj

theorem C9_amended_witness :
    ({ raw_header := some c9text, company := some (cs "Acme Corp"),
       duration := some (cs "2020-2022") } : JobInfo).projects ≠ some [] :=
  C9_amended (cs "Experience\nAcme Corp, Bangalore (2020-2022)") _ (by decide)

theorem policy_le_100 (kws : List (List Char)) (l : List Char)
    (h : lineMatchesPolicy kws l = true) : (lowerL (pyStrip l)).length ≤ 100 := by
  by_contra hgt
  have h100 : (lowerL (pyStrip l)).length > 100 := Nat.gt_of_not_le hgt
  simp only [lineMatchesPolicy] at h
  rw [if_pos h100] at h
  exact Bool.false_ne_true h

/-- Whenever the boundary scan returns an index it did not inherit from its
accumulator, that index points at a line satisfying the matching policy. -/
theorem findBoundaryGo_some (kws : List (List Char)) (ls : List (List Char)) :
    ∀ (i : Nat) (found : Option Nat) (r : Nat),
      findBoundaryGo kws i found ls = some r →
      (∃ j l, ls.get? j = some l ∧ lineMatchesPolicy kws l = true ∧ r = i + j) ∨
        found = some r := by
  induction ls with
  | nil =>
    intro i found r h
    right
    exact h
  | cons line rest ih =>
    intro i found r h
    simp only [findBoundaryGo] at h
    split at h
    case isTrue h100 =>
      rcases ih (i + 1) found r h with ⟨j, l, hg, hp, hr⟩ | hf
      · exact Or.inl ⟨j + 1, l, by simpa using hg, hp, by omega⟩
      · exact Or.inr hf
    case isFalse h100 =>
      split at h
      case isTrue hH =>
        split at h
        case isTrue hmatch =>
          rcases ih (i + 1) (some i) r h with ⟨j, l, hg, hp, hr⟩ | hf
          · exact Or.inl ⟨j + 1, l, by simpa using hg, hp, by omega⟩
          · left
            refine ⟨0, line, rfl, ?_, by injection hf with hf2; omega⟩
            simp only [lineMatchesPolicy]
            rw [if_neg h100, if_pos hH]
            exact hmatch
        case isFalse hmatch =>
          rcases ih (i + 1) found r h with ⟨j, l, hg, hp, hr⟩ | hf
          · exact Or.inl ⟨j + 1, l, by simpa using hg, hp, by omega⟩
          · exact Or.inr hf
      case isFalse hH =>
        split at h
        case isTrue hmatch =>
          left
          refine ⟨0, line, rfl, ?_, by injection h with h2; omega⟩
          simp only [lineMatchesPolicy]
          rw [if_neg h100, if_neg (by simp [hH])]
          exact hmatch
        case isFalse hmatch =>
          cases found with
          | some j0 => exact Or.inr h
          | none =>
            rcases ih (i + 1) none r h with ⟨j, l, hg, hp, hr⟩ | hf
            · exact Or.inl ⟨j + 1, l, by simpa using hg, hp, by omega⟩
            · exact absurd hf (by simp)

/-- On line sequences without `headers:` marker lines, the boundary scan
returns exactly the smallest index of a line satisfying the policy. -/
theorem findBoundaryGo_noHeaders (kws : List (List Char)) (ls : List (List Char)) :
    ∀ i : Nat,
      (∀ l ∈ ls, isSubL (cs "headers:") (lowerL (pyStrip l)) = false) →
      findBoundaryGo kws i none ls =
        (leastMatch (lineMatchesPolicy kws) ls).map (fun j => i + j) := by
  induction ls with
  | nil =>
    intro i _
    rfl
  | cons line rest ih =>
    intro i h
    have hline : isSubL (cs "headers:") (lowerL (pyStrip line)) = false :=
      h line (List.mem_cons_self line rest)
    have hrest : ∀ l ∈ rest, isSubL (cs "headers:") (lowerL (pyStrip l)) = false :=
      fun l hl => h l (List.mem_cons_of_mem line hl)
    simp only [findBoundaryGo, leastMatch]
    by_cases h100 : (lowerL (pyStrip line)).length > 100
    · rw [if_pos h100]
      have hpol : lineMatchesPolicy kws line = false := by
        simp only [lineMatchesPolicy]
        rw [if_pos h100]
      rw [ih (i + 1) hrest, hpol]
      simp only [Bool.false_eq_true, if_false, Option.map_map]
      cases leastMatch (lineMatchesPolicy kws) rest with
      | none => simp
      | some j => simp; omega
    · rw [if_neg h100, if_neg (by simp [hline])]
      have hpol : lineMatchesPolicy kws line =
          kws.any (fun kw => lineMatchesKw kw (lowerL (pyStrip line))) := by
        simp only [lineMatchesPolicy]
        rw [if_neg h100, if_neg (by simp [hline])]
      by_cases hany : kws.any (fun kw => lineMatchesKw kw (lowerL (pyStrip line))) = true
      · rw [if_pos hany, hpol, hany]
        simp
      · rw [if_neg hany, ih (i + 1) hrest, hpol,
          if_neg (by simpa using hany)]
        simp only [Option.map_map]
        cases leastMatch (lineMatchesPolicy kws) rest with
        | none => simp
        | some j => simp; omega

/-- C3 amended: the boundary map holds at most one index per kind (it is
`Option`-valued by construction); a recorded index always points at a line
satisfying the matching policy, whose trimmed form is at most 100 characters;
and on texts without `headers:` marker lines the recorded index is the
smallest matching line index. (On texts with a matching `headers:` line
the scan keeps going and a later match may overwrite the earlier one —
see the counterexample.) -/
theorem C3_amended (k : SKind) (text : List Char) :
    (∀ i, find_section_boundaries text k = some i →
        ∃ l, (splitNl text).get? i = some l ∧
          lineMatchesPolicy (kindKeywords k) l = true ∧
          (lowerL (pyStrip l)).length ≤ 100) ∧
    ((∀ l ∈ splitNl text, isSubL (cs "headers:") (lowerL (pyStrip l)) = false) →
      find_section_boundaries text k =
        leastMatch (lineMatchesPolicy (kindKeywords k)) (splitNl text)) := by
  constructor
  · intro i hi
    rcases findBoundaryGo_some (kindKeywords k) (splitNl text) 0 none i hi with
      ⟨j, l, hg, hp, hr⟩ | hf
    · have hij : i = j := by omega
      subst hij
      exact ⟨l, hg, hp, policy_le_100 (kindKeywords k) l hp⟩
    · exact absurd hf (by simp)
  · intro hnh
    have h0 := findBoundaryGo_noHeaders (kindKeywords k) (splitNl text) 0 hnh
    unfold find_section_boundaries
    rw [h0]
    cases leastMatch (lineMatchesPolicy (kindKeywords k)) (splitNl text) <;> simp

theorem C3_amended_witness :
    (∃ l, (splitNl c3wtext).get? 0 = some l ∧
        lineMatchesPolicy (kindKeywords SKind.skills) l = true ∧
        (lowerL (pyStrip l)).length ≤ 100) ∧
    find_section_boundaries c3wtext SKind.skills =
      leastMatch (lineMatchesPolicy (kindKeywords SKind.skills)) (splitNl c3wtext) :=
  ⟨(C3_amended SKind.skills c3wtext).1 0 (by rfl),
   (C3_amended SKind.skills c3wtext).2 (by decide)⟩

end ResumeParser
